import Mathlib

/-
Verification of the mesh-tessellation cache/scheduler in
src/editor/MeshCreator (the MeshCreator section of RegionManager.ts):
ParallelMeshCreator, ObjectCacheMeshCreator, FaceCacheMeshCreator and
formAndPrecisionCacheKey.

Translation notes.  The source is single-threaded cooperative async
TypeScript.  Each creator is embedded as a pure state-transition
function.  The geometry kernel (c3d) is abstracted as an oracle record
of functions returning Except values; a rejected promise is an
Except.error.  JavaScript promises settle deterministically from the
oracle, so the object cache, which stores a Delay placeholder that is
resolved with the result of the one underlying build, is modelled as
storing that eventual outcome directly.  Maps keyed by bigint or by
number are association lists over Int.  The process-wide
EnterParallelRegion and ExitParallelRegion calls, and every issued
per-face and per-edge kernel call, are recorded in an event trace in
issue order (all kernel calls are issued synchronously inside the
region bracket before any await).  Buffer payloads (index, position,
normal, polyline data) are opaque; they are modelled as lists of Int.
-/

/-- Association-list lookup, the model of Map.get. -/
def alookup {β : Type} (k : Int) : List (Int × β) → Option β
  | [] => none
  | (k₂, v) :: rest => if k = k₂ then some v else alookup k rest

/-- Association-list insert-or-replace, the model of Map.set. -/
def ainsert {β : Type} (k : Int) (v : β) : List (Int × β) → List (Int × β)
  | [] => [(k, v)]
  | (k₂, v₂) :: rest => if k = k₂ then (k, v) :: rest else (k₂, v₂) :: ainsert k v rest

theorem alookup_ainsert_self {β : Type} (k : Int) (v : β) (l : List (Int × β)) :
    alookup k (ainsert k v l) = some v := by
  induction l with
  | nil => simp [ainsert, alookup]
  | cons hd tl ih =>
    obtain ⟨k₂, v₂⟩ := hd
    by_cases h : k = k₂ <;> simp [ainsert, alookup, h, ih]

theorem alookup_ainsert_ne {β : Type} {k k₂ : Int} (h : k₂ ≠ k) (v : β) (l : List (Int × β)) :
    alookup k₂ (ainsert k v l) = alookup k₂ l := by
  induction l with
  | nil => simp [ainsert, alookup, h]
  | cons hd tl ih =>
    obtain ⟨k₃, v₃⟩ := hd
    by_cases h₂ : k = k₃
    · subst h₂
      simp [ainsert, alookup, h]
    · by_cases h₃ : k₂ = k₃ <;> simp [ainsert, alookup, h₂, h₃, ih]

/-- Rejection of a kernel task; payload is an opaque error code. -/
abbrev Err := Nat

/-- Promise.all over settled outcomes: first rejection wins, otherwise
the list of fulfilled values in order. -/
def sequenceExcept {α : Type} : List (Except Err α) → Except Err (List α)
  | [] => .ok []
  | x :: rest =>
    match x with
    | .error e => .error e
    | .ok v =>
      match sequenceExcept rest with
      | .error e => .error e
      | .ok vs => .ok (v :: vs)

theorem sequenceExcept_error_of_mem {α : Type} {l : List (Except Err α)} {e : Err}
    (hx : Except.error e ∈ l) : ∃ e₂, sequenceExcept l = .error e₂ := by
  induction l with
  | nil => cases hx
  | cons hd tl ih =>
    rcases List.mem_cons.mp hx with h | h
    · exact ⟨e, by simp [sequenceExcept, ← h]⟩
    · obtain ⟨e₂, he₂⟩ := ih h
      cases hd with
      | error e₃ => exact ⟨e₃, by simp [sequenceExcept]⟩
      | ok v => exact ⟨e₂, by simp [sequenceExcept, he₂]⟩

theorem sequenceExcept_ok_forall {α : Type} {l : List (Except Err α)} {vs : List α}
    (h : sequenceExcept l = .ok vs) : ∀ x ∈ l, ∃ v, x = .ok v := by
  induction l generalizing vs with
  | nil => intro x hx; cases hx
  | cons hd tl ih =>
    intro x hx
    cases hd with
    | error e => simp [sequenceExcept] at h
    | ok v =>
      rcases List.mem_cons.mp hx with h₂ | h₂
      · exact ⟨v, h₂⟩
      · cases hseq : sequenceExcept tl with
        | error e => rw [sequenceExcept, hseq] at h; simp at h
        | ok ws => exact ih hseq x h₂

theorem sequenceExcept_append_ok {α : Type} {l₁ l₂ : List (Except Err α)}
    {v₁ v₂ : List α} (h₁ : sequenceExcept l₁ = .ok v₁) (h₂ : sequenceExcept l₂ = .ok v₂) :
    sequenceExcept (l₁ ++ l₂) = .ok (v₁ ++ v₂) := by
  induction l₁ generalizing v₁ with
  | nil => simp [sequenceExcept] at h₁; simp [h₁, h₂]
  | cons hd tl ih =>
    cases hd with
    | error e => simp [sequenceExcept] at h₁
    | ok v =>
      cases hseq : sequenceExcept tl with
      | error e => rw [sequenceExcept, hseq] at h₁; simp at h₁
      | ok ws =>
        rw [sequenceExcept, hseq] at h₁
        simp at h₁
        subst h₁
        rw [List.cons_append]
        simp [sequenceExcept, ih hseq]

/- ---------------------------------------------------------------- -/
/- Data model: kernel items, faces, edges, step data, buffers        -/
/- ---------------------------------------------------------------- -/

/-- A curve edge; edge identity (JavaScript reference identity of the
kernel wrapper) is modelled by a Nat identifier. -/
abbrev CurveEdge := Nat

/-- A BREP face as consumed by the creators: its transient kernel id
(face.Id()), its name hash, its style, the own-changed flag and its
ordered edge list (face.GetEdges()). -/
structure Face where
  id : Int
  nameHash : Int
  style : Int
  ownChanged : Bool
  edges : List CurveEdge
deriving DecidableEq

/-- A solid: its item id, its shell faces in declared order
(shell.GetFaces()) and its edges in declared order (solid.GetEdges()). -/
structure Solid where
  id : Int
  faces : List Face
  edges : List CurveEdge
deriving DecidableEq

/-- A c3d.Item is either a Solid or some other item kind (for which the
creators fall back to the basic single-task strategy). -/
inductive Item
  | solid (s : Solid)
  | other (id : Int)
deriving DecidableEq

/-- obj.Id(). -/
def Item.Id : Item → Int
  | .solid s => s.id
  | .other i => i

/-- c3d.StepData; only the sag (chordal deviation) is relevant to the
cache key. -/
structure StepData where
  sag : Int
deriving DecidableEq

/-- c3d.FormNote: the quad and fair form flags. -/
structure FormNote where
  quad : Bool
  fair : Bool
deriving DecidableEq

/-- The index, position and normal buffers extracted from a grid after
the kernel triangulated a face (grid.GetBuffers()); contents opaque. -/
structure GridBuffers where
  index : List Int
  position : List Int
  normal : List Int
deriving DecidableEq

/-- c3d.MeshBuffer as assembled by calculateFace. -/
structure MeshBuffer where
  index : List Int
  position : List Int
  normal : List Int
  model : Int
  style : Int
  simpleName : Int
  i : Nat
deriving DecidableEq

/-- c3d.EdgeBuffer: one outline polyline plus the ordinal and owning
edge stamped on it by calculateEdge. -/
structure EdgeBuffer where
  polyline : List Int
  model : CurveEdge
  i : Nat
deriving DecidableEq

/-- The MeshLike result of create(). -/
structure MeshLike where
  faces : List MeshBuffer
  edges : List EdgeBuffer
deriving DecidableEq

/-- The geometry-kernel oracle: outcomes of the asynchronous kernel
calls issued by the creators.  gridCalc is TriFace.CalculateGrid_async
followed by grid.GetBuffers(); edgeMesh is edge.CalculateMesh_async
followed by mesh.GetEdges(outlinesOnly); basic is the BasicMeshCreator
fallback used for non-solid items. -/
structure Kernel where
  gridCalc : Face → StepData → FormNote → Except Err GridBuffers
  edgeMesh : CurveEdge → StepData → FormNote → Bool → Except Err (List EdgeBuffer)
  basic : Item → StepData → FormNote → Bool → Except Err MeshLike

/-- Events observable at the kernel boundary, in issue order. -/
inductive Event
  | enterRegion
  | exitRegion
  | faceCall (i : Nat)
  | edgeCall (j : Nat)
deriving DecidableEq

/-- for (const [i, x] of xs.entries()) { ... f(i, x) ... } starting at
index n. -/
def mapIdxFrom {α β : Type} (f : Nat → α → β) : Nat → List α → List β
  | _, [] => []
  | n, a :: rest => f n a :: mapIdxFrom f (n + 1) rest

theorem mapIdxFrom_length {α β : Type} (f : Nat → α → β) (n : Nat) (l : List α) :
    (mapIdxFrom f n l).length = l.length := by
  induction l generalizing n with
  | nil => rfl
  | cons hd tl ih => simp [mapIdxFrom, ih]

/- ---------------------------------------------------------------- -/
/- ParallelMeshCreator                                               -/
/- ---------------------------------------------------------------- -/

namespace ParallelMeshCreator

/-- ParallelMeshCreator.calculateFace: allocate a grid, convert
attributes, stamp name, style and ordinal, run the kernel grid
computation at the requested precision, and package the buffers. -/
def calculateFace (k : Kernel) (face : Face) (stepData : StepData) (formNote : FormNote)
    (i : Nat) : Except Err MeshBuffer :=
  match k.gridCalc face stepData formNote with
  | .error e => .error e
  | .ok g =>
    .ok { index := g.index, position := g.position, normal := g.normal,
          model := face.id, style := face.style, simpleName := face.nameHash, i := i }

/-- ParallelMeshCreator.calculateEdge: run the kernel edge tessellation,
take the first outline if any (stamping ordinal and owning edge on it),
and produce none when no outline was produced. -/
def calculateEdge (k : Kernel) (edge : CurveEdge) (stepData : StepData) (formNote : FormNote)
    (outlinesOnly : Bool) (i : Nat) : Except Err (Option EdgeBuffer) :=
  match k.edgeMesh edge stepData formNote outlinesOnly with
  | .error e => .error e
  | .ok [] => .ok none
  | .ok (p :: _) => .ok (some { p with i := i, model := edge })

/-- Instrumented outcome of ParallelMeshCreator.create: the settled
result, the kernel-boundary event trace, and the per-face and per-edge
task lists in issue order. -/
structure Out where
  result : Except Err MeshLike
  trace : List Event
  facePromises : List (Except Err MeshBuffer)
  edgePromises : List (Except Err (Option EdgeBuffer))

/-- ParallelMeshCreator.create.  Non-solids delegate to the basic
fallback.  For a solid: enter the parallel region, issue one
calculateFace task per shell face and one calculateEdge task per solid
edge (in declared order), await all faces then all edges, filter absent
edge results, and exit the region; a rejection propagates out before
ExitParallelRegion is reached (the source has no try or finally around
the bracket). -/
def create (k : Kernel) (obj : Item) (stepData : StepData) (formNote : FormNote)
    (outlinesOnly : Bool) : Out :=
  match obj with
  | .other _ =>
    { result := k.basic obj stepData formNote outlinesOnly,
      trace := [], facePromises := [], edgePromises := [] }
  | .solid solid =>
    let faces := solid.faces
    let facePromises := mapIdxFrom (fun i face => calculateFace k face stepData formNote i) 0 faces
    let edgePromises :=
      mapIdxFrom (fun i edge => calculateEdge k edge stepData formNote outlinesOnly i) 0 solid.edges
    let result : Except Err MeshLike :=
      match sequenceExcept facePromises with
      | .error e => .error e
      | .ok faceResult =>
        match sequenceExcept edgePromises with
        | .error e => .error e
        | .ok edgeResults =>
          .ok { faces := faceResult, edges := edgeResults.filterMap (fun x => x) }
    { result := result,
      trace := Event.enterRegion ::
        ((List.range faces.length).map Event.faceCall ++
         (List.range solid.edges.length).map Event.edgeCall ++
         (match result with | .ok _ => [Event.exitRegion] | .error _ => [])),
      facePromises := facePromises,
      edgePromises := edgePromises }

end ParallelMeshCreator

/- ---------------------------------------------------------------- -/
/- ObjectCacheMeshCreator                                            -/
/- ---------------------------------------------------------------- -/

/-- type FormAndPrecisionKey = number. -/
abbrev FormAndPrecisionKey := Int

/-- formAndPrecisionCacheKey: only the sag is used. -/
def formAndPrecisionCacheKey (stepData : StepData) (_formNote : FormNote) : FormAndPrecisionKey :=
  stepData.sag

namespace ObjectCacheMeshCreator

/-- The objectCache table: precision key, then object id, to the
eventual (pending-or-settled) outcome of the one underlying build that
the stored Delay placeholder resolves to. -/
abbrev Table := List (FormAndPrecisionKey × List (Int × Except Err MeshLike))

/-- Outcome of ObjectCacheMeshCreator.create: the settled result, the
updated table, and how many times the underlying creator was invoked by
this call (0 or 1). -/
structure Out where
  result : Except Err MeshLike
  objectCache : Table
  builds : Nat

/-- ObjectCacheMeshCreator.create: look up the per-key level map
(creating it when absent), return the memoized entry when present;
otherwise install the placeholder under (key, id) and run the
underlying creator exactly once, the placeholder resolving to its
result.  The sequence from entry to placeholder installation contains
no suspension point, so it is atomic in the single-threaded scheduler. -/
def create (underlying : Item → StepData → FormNote → Bool → Except Err MeshLike)
    (objectCache : Table) (obj : Item) (stepData : StepData) (formNote : FormNote)
    (outlinesOnly : Bool) : Out :=
  let id := obj.Id
  let key := formAndPrecisionCacheKey stepData formNote
  let level := (alookup key objectCache).getD []
  match alookup id level with
  | some memoized => { result := memoized, objectCache := objectCache, builds := 0 }
  | none =>
    let result := underlying obj stepData formNote outlinesOnly
    { result := result,
      objectCache := ainsert key (ainsert id result level) objectCache,
      builds := 1 }

/-- Entry stored in the table for a precision key and an object id. -/
def entry (objectCache : Table) (key : FormAndPrecisionKey) (id : Int) :
    Option (Except Err MeshLike) :=
  alookup id ((alookup key objectCache).getD [])

end ObjectCacheMeshCreator

/- ---------------------------------------------------------------- -/
/- FaceCacheMeshCreator                                              -/
/- ---------------------------------------------------------------- -/

namespace FaceCacheMeshCreator

/-- The faceCache table: lineage id to the cached MeshBuffer and
EdgeBuffer list of the owning face. -/
abbrev Table := List (Int × MeshBuffer × List EdgeBuffer)

/-- FaceCacheMeshCreator.cacheFace, as the write it performs: when
isCacheable, await the face task and then all of its edge tasks, and
only if every one of them fulfills store the pair under the lineage id
(the enclosing async function rejects before reaching faceCache.set
otherwise); when not cacheable, store nothing. -/
def cacheFace (lineage : Option Int) (isCacheable : Bool)
    (facePromise : Except Err MeshBuffer)
    (edgePromises : List (Except Err (Option EdgeBuffer))) : Table :=
  if isCacheable then
    match lineage, facePromise, sequenceExcept edgePromises with
    | some l, .ok face, .ok edgeResults =>
      [(l, face, edgeResults.filterMap (fun x => x))]
    | _, _, _ => []
  else []

/-- Accumulated outcome of the per-face loop of
FaceCacheMeshCreator.create: cache-hit buffers and edge buffers in face
order, issued face and edge tasks in issue order, pending cacheFace
writes, and the kernel-call events in issue order. -/
structure LoopOut where
  cachedFaces : List MeshBuffer
  cachedEdges : List EdgeBuffer
  facePromises : List (Except Err MeshBuffer)
  edgePromises : List (Except Err (Option EdgeBuffer))
  writes : Table
  events : List Event

/-- The for-loop of FaceCacheMeshCreator.create over the shell faces,
with face index i, edge ordinal counter j and the seenEdges set
threaded.  All faceCache reads use the table as it was at call entry:
every cacheFace write happens after its face task settles, hence after
this synchronous loop has completed.  The source declares seenEdges and
filters each face's edges through it but never inserts into it, so the
threaded set never grows. -/
def faceLoop (k : Kernel) (history : List (Int × Int)) (faceCache : Table)
    (stepData : StepData) (formNote : FormNote) (outlinesOnly : Bool) :
    List Face → Nat → Nat → List CurveEdge → LoopOut
  | [], _, _, _ =>
    { cachedFaces := [], cachedEdges := [], facePromises := [], edgePromises := [],
      writes := [], events := [] }
  | face :: rest, i, j, seenEdges =>
    let lineage := alookup face.id history
    let isCacheable := !face.ownChanged && lineage.isSome
    let existingGrid :=
      if isCacheable then
        match lineage with
        | some l => alookup l faceCache
        | none => none
      else none
    match existingGrid with
    | some (cachedFace, cachedEdgeList) =>
      let r := faceLoop k history faceCache stepData formNote outlinesOnly rest (i + 1) j seenEdges
      { r with cachedFaces := cachedFace :: r.cachedFaces,
               cachedEdges := cachedEdgeList ++ r.cachedEdges }
    | none =>
      let facePromise := ParallelMeshCreator.calculateFace k face stepData formNote i
      let edges := face.edges.filter (fun e => !seenEdges.contains e)
      let faceEdgePromises :=
        mapIdxFrom (fun idx e => ParallelMeshCreator.calculateEdge k e stepData formNote outlinesOnly idx)
          j edges
      let w := cacheFace lineage isCacheable facePromise faceEdgePromises
      let r := faceLoop k history faceCache stepData formNote outlinesOnly rest (i + 1)
        (j + edges.length) seenEdges
      { cachedFaces := r.cachedFaces,
        cachedEdges := r.cachedEdges,
        facePromises := facePromise :: r.facePromises,
        edgePromises := faceEdgePromises ++ r.edgePromises,
        writes := w ++ r.writes,
        events := (Event.faceCall i :: (List.range edges.length).map (fun t => Event.edgeCall (j + t)))
          ++ r.events }

/-- Apply the settled cacheFace writes to the faceCache table. -/
def applyWrites (faceCache : Table) (writes : Table) : Table :=
  writes.foldl (fun c w => ainsert w.1 w.2 c) faceCache

/-- Instrumented outcome of FaceCacheMeshCreator.create. -/
structure Out where
  result : Except Err MeshLike
  faceCache : Table
  trace : List Event
  facePromises : List (Except Err MeshBuffer)
  edgePromises : List (Except Err (Option EdgeBuffer))
  writes : Table

/-- FaceCacheMeshCreator.create.  Non-solids delegate to the basic
fallback.  For a solid: enter the parallel region; for each face in
declared order, reuse the cached pair when the face is unchanged, its
lineage id resolves through the copier history, and an entry exists;
otherwise issue the face task and the tasks for its not-yet-seen edges
and hand them to cacheFace.  Await all face tasks, prepending the
cache-hit buffers to their results, then all edge tasks (filtering
absent outlines), and exit the region; a rejection propagates out
before ExitParallelRegion is reached.  The cacheFace writes of faces
whose own tasks all fulfilled land in the table regardless of the
fate of the call as a whole (no cancellation). -/
def create (k : Kernel) (history : List (Int × Int)) (faceCache : Table)
    (obj : Item) (stepData : StepData) (formNote : FormNote) (outlinesOnly : Bool) : Out :=
  match obj with
  | .other _ =>
    { result := k.basic obj stepData formNote outlinesOnly,
      faceCache := faceCache, trace := [], facePromises := [], edgePromises := [], writes := [] }
  | .solid solid =>
    let r := faceLoop k history faceCache stepData formNote outlinesOnly solid.faces 0 0 []
    let result : Except Err MeshLike :=
      match sequenceExcept r.facePromises with
      | .error e => .error e
      | .ok faceResult =>
        match sequenceExcept r.edgePromises with
        | .error e => .error e
        | .ok edgeResults =>
          .ok { faces := r.cachedFaces ++ faceResult,
                edges := r.cachedEdges ++ edgeResults.filterMap (fun x => x) }
    { result := result,
      faceCache := applyWrites faceCache r.writes,
      trace := Event.enterRegion ::
        (r.events ++ (match result with | .ok _ => [Event.exitRegion] | .error _ => [])),
      facePromises := r.facePromises,
      edgePromises := r.edgePromises,
      writes := r.writes }

end FaceCacheMeshCreator

/- ---------------------------------------------------------------- -/
/- Concrete fixtures and spec-side characterizations                 -/
/- ---------------------------------------------------------------- -/

/-- A concrete mesh result for witness scenarios. -/
def mesh0 : MeshLike := { faces := [], edges := [] }

/-- An underlying creator that always fulfills with mesh0. -/
def underlyingOk : Item → StepData → FormNote → Bool → Except Err MeshLike :=
  fun _ _ _ _ => .ok mesh0

/-- An underlying creator that always rejects with error code 7. -/
def underlyingErr : Item → StepData → FormNote → Bool → Except Err MeshLike :=
  fun _ _ _ _ => .error 7

/-- Form note with both flags off, used in concrete scenarios. -/
def fn0 : FormNote := { quad := false, fair := false }

/-- A kernel where every call fulfills: a grid carries the face id in
its index buffer and the requested sag in its position buffer, and
every edge yields exactly one outline. -/
def kernelOk : Kernel :=
  { gridCalc := fun f sd _ => .ok { index := [f.id], position := [sd.sag], normal := [] },
    edgeMesh := fun e _ _ _ => .ok [{ polyline := [Int.ofNat e], model := 0, i := 0 }],
    basic := fun _ _ _ _ => .ok mesh0 }

/-- A kernel whose face-grid computation always rejects with error
code 3 while edge calls fulfill. -/
def kernelFaceFail : Kernel :=
  { gridCalc := fun _ _ _ => .error 3,
    edgeMesh := fun e _ _ _ => .ok [{ polyline := [Int.ofNat e], model := 0, i := 0 }],
    basic := fun _ _ _ _ => .ok mesh0 }

/-- An unchanged cube face with the given id and edge loop. -/
def cubeFace (n : Int) (es : List CurveEdge) : Face :=
  { id := n, nameHash := 0, style := 0, ownChanged := false, edges := es }

/-- A cube: 6 faces, 12 edges, each edge shared by exactly 2 faces. -/
def cube : Solid :=
  { id := 100,
    faces := [cubeFace 0 [0, 1, 2, 3], cubeFace 1 [4, 5, 6, 7], cubeFace 2 [0, 8, 4, 9],
              cubeFace 3 [1, 9, 5, 10], cubeFace 4 [2, 10, 6, 11], cubeFace 5 [3, 11, 7, 8]],
    edges := [0, 1, 2, 3, 4, 5, 6, 7, 8, 9, 10, 11] }

/-- An unchanged face whose lineage resolves to 77 in the session
history used for the cross-precision scenario. -/
def face9 : Face := { id := 10, nameHash := 0, style := 0, ownChanged := false, edges := [] }

/-- A one-face solid for the cross-precision scenario. -/
def solid9 : Solid := { id := 1, faces := [face9], edges := [] }

/-- A changed face (always recomputed) for the order scenario. -/
def faceChanged : Face := { id := 20, nameHash := 0, style := 0, ownChanged := true, edges := [] }

/-- An unchanged face with lineage 88 for the order scenario. -/
def faceHit : Face := { id := 21, nameHash := 0, style := 0, ownChanged := false, edges := [] }

/-- A two-face solid: declared face order is changed face first, then
the cache-hit face. -/
def solid4 : Solid := { id := 3, faces := [faceChanged, faceHit], edges := [] }

/-- The buffer an earlier call stored for lineage 88; its ordinal from
that call is 1. -/
def bufOld : MeshBuffer :=
  { index := [99], position := [], normal := [], model := 21, style := 0, simpleName := 0, i := 1 }

/-- A one-face, one-edge solid for the region-bracket scenario. -/
def solidF : Solid := { id := 2, faces := [face9], edges := [0] }

/-- The pair that FaceCacheMeshCreator.create reuses for a face, when
any: present exactly when the face reports no local change, its lineage
id resolves through the history, and the table has an entry for it. -/
def hitEntry (history : List (Int × Int)) (faceCache : FaceCacheMeshCreator.Table) (f : Face) :
    Option (MeshBuffer × List EdgeBuffer) :=
  match alookup f.id history with
  | none => none
  | some l => if f.ownChanged then none else alookup l faceCache

/-- The edge tasks FaceCacheMeshCreator.create issues for one
recomputed face, given the seen-edge set and the running ordinal j. -/
def faceEdgeTasks (k : Kernel) (stepData : StepData) (formNote : FormNote) (outlinesOnly : Bool)
    (seenEdges : List CurveEdge) (f : Face) (j : Nat) : List (Except Err (Option EdgeBuffer)) :=
  mapIdxFrom (fun idx e => ParallelMeshCreator.calculateEdge k e stepData formNote outlinesOnly idx)
    j (f.edges.filter (fun e => !seenEdges.contains e))

/-- The faces of the list that hit the cache, with their cached
buffers, in declared order. -/
def cacheHitFaces (history : List (Int × Int)) (faceCache : FaceCacheMeshCreator.Table) :
    List Face → List MeshBuffer
  | [] => []
  | f :: rest =>
    match hitEntry history faceCache f with
    | some (b, _) => b :: cacheHitFaces history faceCache rest
    | none => cacheHitFaces history faceCache rest

/-- The faces of the list that miss the cache, with their declared
indices counted from i, in declared order. -/
def missesFrom (history : List (Int × Int)) (faceCache : FaceCacheMeshCreator.Table) :
    List Face → Nat → List (Nat × Face)
  | [], _ => []
  | f :: rest, i =>
    match hitEntry history faceCache f with
    | some _ => missesFrom history faceCache rest (i + 1)
    | none => (i, f) :: missesFrom history faceCache rest (i + 1)

/-- The mesh a fulfilled parallel create returns for solidF at sag 1. -/
def meshF : MeshLike :=
  { faces := [{ index := [10], position := [1], normal := [], model := 10, style := 0,
                simpleName := 0, i := 0 }],
    edges := [{ polyline := [0], model := 0, i := 0 }] }

/-- A changed face whose lineage resolves to 88 in the session
history. -/
def faceChangedLineage : Face :=
  { id := 30, nameHash := 0, style := 0, ownChanged := true, edges := [] }

/-- A one-face solid holding the changed face. -/
def solid8 : Solid := { id := 4, faces := [faceChangedLineage], edges := [] }

/-- The stale pair an earlier call stored for lineage 88. -/
def bufStale : MeshBuffer :=
  { index := [5], position := [], normal := [], model := 30, style := 0, simpleName := 0, i := 0 }

/- ---------------------------------------------------------------- -/
/- Theorems                                                          -/
/- ---------------------------------------------------------------- -/

theorem objectCacheCreateHit
    {underlying : Item → StepData → FormNote → Bool → Except Err MeshLike}
    {objectCache : ObjectCacheMeshCreator.Table} {obj : Item} {stepData : StepData}
    {formNote : FormNote} {outlinesOnly : Bool} {v : Except Err MeshLike}
    (hv : ObjectCacheMeshCreator.entry objectCache (formAndPrecisionCacheKey stepData formNote)
      obj.Id = some v) :
    ObjectCacheMeshCreator.create underlying objectCache obj stepData formNote outlinesOnly =
      { result := v, objectCache := objectCache, builds := 0 } := by
  unfold ObjectCacheMeshCreator.entry at hv
  simp only [ObjectCacheMeshCreator.create, hv]

theorem objectCacheCreateMiss
    {underlying : Item → StepData → FormNote → Bool → Except Err MeshLike}
    {objectCache : ObjectCacheMeshCreator.Table} {obj : Item} {stepData : StepData}
    {formNote : FormNote} {outlinesOnly : Bool}
    (hv : ObjectCacheMeshCreator.entry objectCache (formAndPrecisionCacheKey stepData formNote)
      obj.Id = none) :
    ObjectCacheMeshCreator.create underlying objectCache obj stepData formNote outlinesOnly =
      { result := underlying obj stepData formNote outlinesOnly,
        objectCache := ainsert (formAndPrecisionCacheKey stepData formNote)
          (ainsert obj.Id (underlying obj stepData formNote outlinesOnly)
            ((alookup (formAndPrecisionCacheKey stepData formNote) objectCache).getD []))
          objectCache,
        builds := 1 } := by
  unfold ObjectCacheMeshCreator.entry at hv
  simp only [ObjectCacheMeshCreator.create, hv]

theorem objectCacheEntryAfterMiss
    {underlying : Item → StepData → FormNote → Bool → Except Err MeshLike}
    {objectCache : ObjectCacheMeshCreator.Table} {obj : Item} {stepData : StepData}
    {formNote : FormNote} {outlinesOnly : Bool}
    (hv : ObjectCacheMeshCreator.entry objectCache (formAndPrecisionCacheKey stepData formNote)
      obj.Id = none) :
    ObjectCacheMeshCreator.entry
      (ObjectCacheMeshCreator.create underlying objectCache obj stepData formNote
        outlinesOnly).objectCache
      (formAndPrecisionCacheKey stepData formNote) obj.Id =
      some (underlying obj stepData formNote outlinesOnly) := by
  rw [objectCacheCreateMiss hv]
  unfold ObjectCacheMeshCreator.entry
  rw [alookup_ainsert_self]
  simp [alookup_ainsert_self]

theorem objectCacheOtherKeyUntouched
    {underlying : Item → StepData → FormNote → Bool → Except Err MeshLike}
    {objectCache : ObjectCacheMeshCreator.Table} {obj : Item} {stepData : StepData}
    {formNote : FormNote} {outlinesOnly : Bool} {key : FormAndPrecisionKey}
    (hkey : key ≠ formAndPrecisionCacheKey stepData formNote) (i : Int) :
    ObjectCacheMeshCreator.entry
      (ObjectCacheMeshCreator.create underlying objectCache obj stepData formNote
        outlinesOnly).objectCache key i =
      ObjectCacheMeshCreator.entry objectCache key i := by
  cases hv : ObjectCacheMeshCreator.entry objectCache (formAndPrecisionCacheKey stepData formNote)
      obj.Id with
  | some v => rw [objectCacheCreateHit hv]
  | none =>
    rw [objectCacheCreateMiss hv]
    unfold ObjectCacheMeshCreator.entry
    rw [alookup_ainsert_ne hkey]

/-- Claim C1: once the object cache holds an entry for a pair of object
id and precision key, any further create call with that same pair
returns the stored result directly, leaves the table unchanged and does
not invoke the underlying computation (builds = 0); and starting from a
key with no entry, the first call performs exactly one underlying build
while a second call with the same pair performs none and observes the
same result and the same table, so repeated calls all agree. -/
theorem objectCacheMemoization
    (underlying : Item → StepData → FormNote → Bool → Except Err MeshLike)
    (objectCache : ObjectCacheMeshCreator.Table) (obj : Item) (stepData : StepData)
    (formNote : FormNote) (outlinesOnly : Bool) :
    (∀ v, ObjectCacheMeshCreator.entry objectCache (formAndPrecisionCacheKey stepData formNote)
        obj.Id = some v →
      ObjectCacheMeshCreator.create underlying objectCache obj stepData formNote outlinesOnly =
        { result := v, objectCache := objectCache, builds := 0 })
    ∧ (ObjectCacheMeshCreator.entry objectCache (formAndPrecisionCacheKey stepData formNote)
        obj.Id = none →
      (ObjectCacheMeshCreator.create underlying objectCache obj stepData formNote
        outlinesOnly).builds = 1 ∧
      ObjectCacheMeshCreator.create underlying
        (ObjectCacheMeshCreator.create underlying objectCache obj stepData formNote
          outlinesOnly).objectCache obj stepData formNote outlinesOnly =
        { result :=
            (ObjectCacheMeshCreator.create underlying objectCache obj stepData formNote
              outlinesOnly).result,
          objectCache :=
            (ObjectCacheMeshCreator.create underlying objectCache obj stepData formNote
              outlinesOnly).objectCache,
          builds := 0 }) := by
  constructor
  · intro v hv
    exact objectCacheCreateHit hv
  · intro hnone
    refine ⟨by rw [objectCacheCreateMiss hnone], ?_⟩
    have h₂ := @objectCacheEntryAfterMiss underlying objectCache obj stepData formNote
      outlinesOnly hnone
    rw [objectCacheCreateHit h₂]
    rw [objectCacheCreateMiss hnone]

/-- Witness for C1 at a concrete input: a table holding mesh0 for key 1
and object 5 is returned directly, and a fresh table performs one build
then zero builds with identical results. -/
theorem objectCacheMemoizationWitness :
    (ObjectCacheMeshCreator.create underlyingOk [(1, [(5, Except.ok mesh0)])] (.other 5)
        { sag := 1 } { quad := false, fair := false } false =
      { result := Except.ok mesh0, objectCache := [(1, [(5, Except.ok mesh0)])], builds := 0 })
    ∧ (ObjectCacheMeshCreator.create underlyingOk [] (.other 5)
        { sag := 1 } { quad := false, fair := false } false).builds = 1 := by
  constructor
  · exact (objectCacheMemoization underlyingOk [(1, [(5, Except.ok mesh0)])] (.other 5)
      { sag := 1 } { quad := false, fair := false } false).1 (Except.ok mesh0) rfl
  · exact ((objectCacheMemoization underlyingOk [] (.other 5)
      { sag := 1 } { quad := false, fair := false } false).2 rfl).1

/-- Claim C3 (code bug witness): when the underlying computation of an
object-cache create call fails, the placeholder under the pair of
precision key and object id is NOT evicted: the failed outcome stays in
the table, and a later create call with the same pair returns the
stored failure with zero underlying builds instead of retrying fresh. -/
theorem failedBuildRemainsCached :
    (ObjectCacheMeshCreator.create underlyingErr [] (.other 5)
        { sag := 1 } { quad := false, fair := false } false).result = Except.error 7
    ∧ ObjectCacheMeshCreator.entry
        (ObjectCacheMeshCreator.create underlyingErr [] (.other 5)
          { sag := 1 } { quad := false, fair := false } false).objectCache 1 5 =
        some (Except.error 7)
    ∧ (ObjectCacheMeshCreator.create underlyingErr
        (ObjectCacheMeshCreator.create underlyingErr [] (.other 5)
          { sag := 1 } { quad := false, fair := false } false).objectCache
        (.other 5) { sag := 1 } { quad := false, fair := false } false).builds = 0
    ∧ (ObjectCacheMeshCreator.create underlyingErr
        (ObjectCacheMeshCreator.create underlyingErr [] (.other 5)
          { sag := 1 } { quad := false, fair := false } false).objectCache
        (.other 5) { sag := 1 } { quad := false, fair := false } false).result =
        Except.error 7 := by
  exact ⟨rfl, rfl, rfl, rfl⟩

/-- Claim C7: two create calls on the same object with distinct
precision keys are fully isolated: the second call leaves every entry
of the first key exactly as the first call left it, the first call
leaves every entry of the second key as it initially was, and when the
table is fresh for both keys each call performs its own full underlying
computation. -/
theorem precisionKeyIsolation
    (underlying : Item → StepData → FormNote → Bool → Except Err MeshLike)
    (objectCache : ObjectCacheMeshCreator.Table) (obj : Item)
    (sd₁ sd₂ : StepData) (fn₁ fn₂ : FormNote) (oo₁ oo₂ : Bool)
    (hkey : formAndPrecisionCacheKey sd₁ fn₁ ≠ formAndPrecisionCacheKey sd₂ fn₂) :
    (∀ i, ObjectCacheMeshCreator.entry
        (ObjectCacheMeshCreator.create underlying
          (ObjectCacheMeshCreator.create underlying objectCache obj sd₁ fn₁ oo₁).objectCache
          obj sd₂ fn₂ oo₂).objectCache (formAndPrecisionCacheKey sd₁ fn₁) i =
      ObjectCacheMeshCreator.entry
        (ObjectCacheMeshCreator.create underlying objectCache obj sd₁ fn₁ oo₁).objectCache
        (formAndPrecisionCacheKey sd₁ fn₁) i)
    ∧ (∀ i, ObjectCacheMeshCreator.entry
        (ObjectCacheMeshCreator.create underlying objectCache obj sd₁ fn₁ oo₁).objectCache
        (formAndPrecisionCacheKey sd₂ fn₂) i =
      ObjectCacheMeshCreator.entry objectCache (formAndPrecisionCacheKey sd₂ fn₂) i)
    ∧ (ObjectCacheMeshCreator.entry objectCache (formAndPrecisionCacheKey sd₁ fn₁) obj.Id =
        none →
      (ObjectCacheMeshCreator.create underlying objectCache obj sd₁ fn₁ oo₁).builds = 1 ∧
      (ObjectCacheMeshCreator.create underlying objectCache obj sd₁ fn₁ oo₁).result =
        underlying obj sd₁ fn₁ oo₁)
    ∧ (ObjectCacheMeshCreator.entry objectCache (formAndPrecisionCacheKey sd₂ fn₂) obj.Id =
        none →
      (ObjectCacheMeshCreator.create underlying
        (ObjectCacheMeshCreator.create underlying objectCache obj sd₁ fn₁ oo₁).objectCache
        obj sd₂ fn₂ oo₂).builds = 1 ∧
      (ObjectCacheMeshCreator.create underlying
        (ObjectCacheMeshCreator.create underlying objectCache obj sd₁ fn₁ oo₁).objectCache
        obj sd₂ fn₂ oo₂).result = underlying obj sd₂ fn₂ oo₂) := by
  refine ⟨fun i => objectCacheOtherKeyUntouched hkey i,
          fun i => objectCacheOtherKeyUntouched (Ne.symm hkey) i, ?_, ?_⟩
  · intro hnone
    rw [objectCacheCreateMiss hnone]
    exact ⟨rfl, rfl⟩
  · intro hnone
    have h₂ : ObjectCacheMeshCreator.entry
        (ObjectCacheMeshCreator.create underlying objectCache obj sd₁ fn₁ oo₁).objectCache
        (formAndPrecisionCacheKey sd₂ fn₂) obj.Id = none := by
      rw [objectCacheOtherKeyUntouched (Ne.symm hkey) obj.Id]
      exact hnone
    rw [objectCacheCreateMiss h₂]
    exact ⟨rfl, rfl⟩

/-- Witness for C7 at a concrete input: sag 1 then sag 2 on the same
object from a fresh table, two independent builds. -/
theorem precisionKeyIsolationWitness :
    (ObjectCacheMeshCreator.create underlyingOk [] (.other 5)
        { sag := 1 } { quad := false, fair := false } false).builds = 1
    ∧ (ObjectCacheMeshCreator.create underlyingOk
        (ObjectCacheMeshCreator.create underlyingOk [] (.other 5)
          { sag := 1 } { quad := false, fair := false } false).objectCache
        (.other 5) { sag := 2 } { quad := false, fair := false } false).builds = 1 := by
  have h := precisionKeyIsolation underlyingOk [] (.other 5)
    { sag := 1 } { sag := 2 } { quad := false, fair := false } { quad := false, fair := false }
    false false (by decide)
  exact ⟨(h.2.2.1 rfl).1, (h.2.2.2 rfl).1⟩

/-- Claim C2 (code bug witness): one face-caching create call on the
cube (6 faces, 12 edges, each edge shared by exactly 2 faces, no cache
entries) schedules 24 edge tasks and yields 24 edge results instead of
the 12 the specified per-call seen-edge deduplication would give: the
source declares the seenEdges set and filters through it but never
inserts into it. -/
theorem cubeEdgeDuplication :
    ((FaceCacheMeshCreator.create kernelOk [] [] (.solid cube)
        { sag := 1 } fn0 false).result).map (fun m => m.edges.length) = Except.ok 24
    ∧ (FaceCacheMeshCreator.create kernelOk [] [] (.solid cube)
        { sag := 1 } fn0 false).edgePromises.length = 24 := by
  exact ⟨rfl, rfl⟩

/-- Claim C9: the per-face cache is keyed solely by lineage id: a face
entry stored by a create call at sag 1 is returned verbatim by a later
create call at sag 2 (distinct precision keys) for the unchanged face;
the second call issues no face task at all, and the buffer it returns
still carries the sag-1 payload in its position buffer. -/
theorem faceCacheCrossPrecisionReuse :
    formAndPrecisionCacheKey { sag := 1 } fn0 ≠ formAndPrecisionCacheKey { sag := 2 } fn0
    ∧ (FaceCacheMeshCreator.create kernelOk [(10, 77)]
        (FaceCacheMeshCreator.create kernelOk [(10, 77)] [] (.solid solid9)
          { sag := 1 } fn0 false).faceCache
        (.solid solid9) { sag := 2 } fn0 false).result =
      Except.ok { faces := [{ index := [10], position := [1], normal := [], model := 10,
                              style := 0, simpleName := 0, i := 0 }], edges := [] }
    ∧ (FaceCacheMeshCreator.create kernelOk [(10, 77)]
        (FaceCacheMeshCreator.create kernelOk [(10, 77)] [] (.solid solid9)
          { sag := 1 } fn0 false).faceCache
        (.solid solid9) { sag := 2 } fn0 false).facePromises = []
    ∧ Event.faceCall 0 ∉ (FaceCacheMeshCreator.create kernelOk [(10, 77)]
        (FaceCacheMeshCreator.create kernelOk [(10, 77)] [] (.solid solid9)
          { sag := 1 } fn0 false).faceCache
        (.solid solid9) { sag := 2 } fn0 false).trace := by
  refine ⟨by decide, rfl, rfl, by decide⟩

/-- Counterexample to claim C4: in a face-caching create call in which
face 0 is recomputed and face 1 is a cache hit, the returned faces
sequence lists the cache-hit buffer first and the recomputed buffer
second, so its ordinals read 1 then 0: the i-th element of the result
does not correspond to the i-th enumerated face. -/
theorem faceCacheOrderCounterexample :
    ((FaceCacheMeshCreator.create kernelOk [(21, 88)] [(88, bufOld, [])] (.solid solid4)
        { sag := 1 } fn0 false).result).map (fun m => m.faces.map (fun b => b.i)) =
      Except.ok [1, 0]
    ∧ ([1, 0] : List Nat) ≠ List.range 2 := by
  exact ⟨rfl, by decide⟩

/-- Counterexample to claim C6: when the face task of a parallel create
call rejects, the call completes with the failure but ExitParallelRegion
is never reached (the source has no try or finally around the bracket):
the trace records the region entry and both kernel calls and no region
exit, so the process-wide region is left entered. -/
theorem regionNotExitedOnFailure :
    (ParallelMeshCreator.create kernelFaceFail (.solid solidF)
        { sag := 1 } fn0 false).result = Except.error 3
    ∧ (ParallelMeshCreator.create kernelFaceFail (.solid solidF)
        { sag := 1 } fn0 false).trace =
      [Event.enterRegion, Event.faceCall 0, Event.edgeCall 0]
    ∧ Event.exitRegion ∉ (ParallelMeshCreator.create kernelFaceFail (.solid solidF)
        { sag := 1 } fn0 false).trace := by
  refine ⟨rfl, rfl, by decide⟩

theorem faceLoop_cons_hit (k : Kernel) (history : List (Int × Int))
    (faceCache : FaceCacheMeshCreator.Table) (stepData : StepData) (formNote : FormNote)
    (outlinesOnly : Bool) (f : Face) (rest : List Face) (i j : Nat) (seenEdges : List CurveEdge)
    {b : MeshBuffer} {es : List EdgeBuffer}
    (h : hitEntry history faceCache f = some (b, es)) :
    FaceCacheMeshCreator.faceLoop k history faceCache stepData formNote outlinesOnly
      (f :: rest) i j seenEdges =
      { cachedFaces := b :: (FaceCacheMeshCreator.faceLoop k history faceCache stepData formNote
          outlinesOnly rest (i + 1) j seenEdges).cachedFaces,
        cachedEdges := es ++ (FaceCacheMeshCreator.faceLoop k history faceCache stepData formNote
          outlinesOnly rest (i + 1) j seenEdges).cachedEdges,
        facePromises := (FaceCacheMeshCreator.faceLoop k history faceCache stepData formNote
          outlinesOnly rest (i + 1) j seenEdges).facePromises,
        edgePromises := (FaceCacheMeshCreator.faceLoop k history faceCache stepData formNote
          outlinesOnly rest (i + 1) j seenEdges).edgePromises,
        writes := (FaceCacheMeshCreator.faceLoop k history faceCache stepData formNote
          outlinesOnly rest (i + 1) j seenEdges).writes,
        events := (FaceCacheMeshCreator.faceLoop k history faceCache stepData formNote
          outlinesOnly rest (i + 1) j seenEdges).events } := by
  unfold hitEntry at h
  cases hl : alookup f.id history with
  | none => rw [hl] at h; simp at h
  | some l =>
    rw [hl] at h
    cases hc : f.ownChanged with
    | true => rw [hc] at h; simp at h
    | false =>
      rw [hc] at h
      simp only [if_false, Bool.false_eq_true] at h
      simp only [FaceCacheMeshCreator.faceLoop, hl, hc, h, Option.isSome_some,
        Bool.not_false, Bool.and_self, if_true]

theorem faceLoop_cons_miss (k : Kernel) (history : List (Int × Int))
    (faceCache : FaceCacheMeshCreator.Table) (stepData : StepData) (formNote : FormNote)
    (outlinesOnly : Bool) (f : Face) (rest : List Face) (i j : Nat) (seenEdges : List CurveEdge)
    (h : hitEntry history faceCache f = none) :
    FaceCacheMeshCreator.faceLoop k history faceCache stepData formNote outlinesOnly
      (f :: rest) i j seenEdges =
      { cachedFaces := (FaceCacheMeshCreator.faceLoop k history faceCache stepData formNote
          outlinesOnly rest (i + 1)
          (j + (f.edges.filter (fun e => !seenEdges.contains e)).length) seenEdges).cachedFaces,
        cachedEdges := (FaceCacheMeshCreator.faceLoop k history faceCache stepData formNote
          outlinesOnly rest (i + 1)
          (j + (f.edges.filter (fun e => !seenEdges.contains e)).length) seenEdges).cachedEdges,
        facePromises := ParallelMeshCreator.calculateFace k f stepData formNote i ::
          (FaceCacheMeshCreator.faceLoop k history faceCache stepData formNote outlinesOnly rest
            (i + 1)
            (j + (f.edges.filter (fun e => !seenEdges.contains e)).length) seenEdges).facePromises,
        edgePromises := faceEdgeTasks k stepData formNote outlinesOnly seenEdges f j ++
          (FaceCacheMeshCreator.faceLoop k history faceCache stepData formNote outlinesOnly rest
            (i + 1)
            (j + (f.edges.filter (fun e => !seenEdges.contains e)).length) seenEdges).edgePromises,
        writes := FaceCacheMeshCreator.cacheFace (alookup f.id history)
            (!f.ownChanged && (alookup f.id history).isSome)
            (ParallelMeshCreator.calculateFace k f stepData formNote i)
            (faceEdgeTasks k stepData formNote outlinesOnly seenEdges f j) ++
          (FaceCacheMeshCreator.faceLoop k history faceCache stepData formNote outlinesOnly rest
            (i + 1)
            (j + (f.edges.filter (fun e => !seenEdges.contains e)).length) seenEdges).writes,
        events := (Event.faceCall i ::
            (List.range (f.edges.filter (fun e => !seenEdges.contains e)).length).map
              (fun t => Event.edgeCall (j + t))) ++
          (FaceCacheMeshCreator.faceLoop k history faceCache stepData formNote outlinesOnly rest
            (i + 1)
            (j + (f.edges.filter (fun e => !seenEdges.contains e)).length) seenEdges).events } := by
  unfold hitEntry at h
  cases hl : alookup f.id history with
  | none =>
    simp only [FaceCacheMeshCreator.faceLoop, hl, Option.isSome_none, Bool.and_false, if_false,
      faceEdgeTasks]
    rfl
  | some l =>
    rw [hl] at h
    cases hc : f.ownChanged with
    | true =>
      simp only [FaceCacheMeshCreator.faceLoop, hl, hc, Bool.not_true, Bool.false_and, if_false,
        faceEdgeTasks]
      rfl
    | false =>
      rw [hc] at h
      simp only [if_false, Bool.false_eq_true] at h
      simp only [FaceCacheMeshCreator.faceLoop, hl, hc, h, Option.isSome_some, Bool.not_false,
        Bool.and_self, if_true, faceEdgeTasks]

theorem faceLoop_cachedFaces (k : Kernel) (history : List (Int × Int))
    (faceCache : FaceCacheMeshCreator.Table) (stepData : StepData) (formNote : FormNote)
    (outlinesOnly : Bool) :
    ∀ (faces : List Face) (i j : Nat) (seenEdges : List CurveEdge),
      (FaceCacheMeshCreator.faceLoop k history faceCache stepData formNote outlinesOnly
        faces i j seenEdges).cachedFaces = cacheHitFaces history faceCache faces := by
  intro faces
  induction faces with
  | nil => intro i j seenEdges; rfl
  | cons f rest ih =>
    intro i j seenEdges
    cases h : hitEntry history faceCache f with
    | some be =>
      obtain ⟨b, es⟩ := be
      rw [faceLoop_cons_hit k history faceCache stepData formNote outlinesOnly f rest i j
        seenEdges h]
      simp [cacheHitFaces, h, ih]
    | none =>
      rw [faceLoop_cons_miss k history faceCache stepData formNote outlinesOnly f rest i j
        seenEdges h]
      simp [cacheHitFaces, h, ih]

theorem faceLoop_facePromises (k : Kernel) (history : List (Int × Int))
    (faceCache : FaceCacheMeshCreator.Table) (stepData : StepData) (formNote : FormNote)
    (outlinesOnly : Bool) :
    ∀ (faces : List Face) (i j : Nat) (seenEdges : List CurveEdge),
      (FaceCacheMeshCreator.faceLoop k history faceCache stepData formNote outlinesOnly
        faces i j seenEdges).facePromises =
        (missesFrom history faceCache faces i).map
          (fun p => ParallelMeshCreator.calculateFace k p.2 stepData formNote p.1) := by
  intro faces
  induction faces with
  | nil => intro i j seenEdges; rfl
  | cons f rest ih =>
    intro i j seenEdges
    cases h : hitEntry history faceCache f with
    | some be =>
      obtain ⟨b, es⟩ := be
      rw [faceLoop_cons_hit k history faceCache stepData formNote outlinesOnly f rest i j
        seenEdges h]
      simp [missesFrom, h, ih]
    | none =>
      rw [faceLoop_cons_miss k history faceCache stepData formNote outlinesOnly f rest i j
        seenEdges h]
      simp [missesFrom, h, ih]

theorem faceLoop_events_no_region (k : Kernel) (history : List (Int × Int))
    (faceCache : FaceCacheMeshCreator.Table) (stepData : StepData) (formNote : FormNote)
    (outlinesOnly : Bool) :
    ∀ (faces : List Face) (i j : Nat) (seenEdges : List CurveEdge),
      Event.enterRegion ∉ (FaceCacheMeshCreator.faceLoop k history faceCache stepData formNote
        outlinesOnly faces i j seenEdges).events ∧
      Event.exitRegion ∉ (FaceCacheMeshCreator.faceLoop k history faceCache stepData formNote
        outlinesOnly faces i j seenEdges).events := by
  intro faces
  induction faces with
  | nil => intro i j seenEdges; exact ⟨List.not_mem_nil _, List.not_mem_nil _⟩
  | cons f rest ih =>
    intro i j seenEdges
    cases h : hitEntry history faceCache f with
    | some be =>
      obtain ⟨b, es⟩ := be
      rw [faceLoop_cons_hit k history faceCache stepData formNote outlinesOnly f rest i j
        seenEdges h]
      exact ih (i + 1) j seenEdges
    | none =>
      rw [faceLoop_cons_miss k history faceCache stepData formNote outlinesOnly f rest i j
        seenEdges h]
      have hr := ih (i + 1) (j + (f.edges.filter (fun e => !seenEdges.contains e)).length) seenEdges
      constructor
      · intro hc
        rcases List.mem_cons.mp hc with hc | hc
        · cases hc
        · rcases List.mem_append.mp hc with hc | hc
          · rcases List.mem_map.mp hc with ⟨x, _, hx⟩
            cases hx
          · exact hr.1 hc
      · intro hc
        rcases List.mem_cons.mp hc with hc | hc
        · cases hc
        · rcases List.mem_append.mp hc with hc | hc
          · rcases List.mem_map.mp hc with ⟨x, _, hx⟩
            cases hx
          · exact hr.2 hc

theorem faceLoop_events_faceCall (k : Kernel) (history : List (Int × Int))
    (faceCache : FaceCacheMeshCreator.Table) (stepData : StepData) (formNote : FormNote)
    (outlinesOnly : Bool) :
    ∀ (faces : List Face) (i j : Nat) (seenEdges : List CurveEdge) (t : Nat),
      (Event.faceCall t ∈ (FaceCacheMeshCreator.faceLoop k history faceCache stepData formNote
        outlinesOnly faces i j seenEdges).events ↔
        ∃ g, (t, g) ∈ missesFrom history faceCache faces i) := by
  intro faces
  induction faces with
  | nil =>
    intro i j seenEdges t
    simp [FaceCacheMeshCreator.faceLoop, missesFrom]
  | cons f rest ih =>
    intro i j seenEdges t
    cases h : hitEntry history faceCache f with
    | some be =>
      obtain ⟨b, es⟩ := be
      rw [faceLoop_cons_hit k history faceCache stepData formNote outlinesOnly f rest i j
        seenEdges h]
      simp only [missesFrom, h]
      exact ih (i + 1) j seenEdges t
    | none =>
      rw [faceLoop_cons_miss k history faceCache stepData formNote outlinesOnly f rest i j
        seenEdges h]
      simp only [missesFrom, h, List.cons_append, List.mem_cons, List.mem_append, List.mem_map,
        List.mem_range]
      constructor
      · intro hc
        rcases hc with hc | hc | hc
        · exact ⟨f, Or.inl (by simp [Event.faceCall.injEq] at hc; simp [hc])⟩
        · obtain ⟨x, _, hx⟩ := hc
          cases hx
        · obtain ⟨g, hg⟩ := (ih (i + 1)
            (j + (f.edges.filter (fun e => !seenEdges.contains e)).length) seenEdges t).mp hc
          exact ⟨g, Or.inr hg⟩
      · intro hc
        obtain ⟨g, hg | hg⟩ := hc
        · simp at hg
          exact Or.inl (by simp [hg.1])
        · exact Or.inr (Or.inr ((ih (i + 1)
            (j + (f.edges.filter (fun e => !seenEdges.contains e)).length) seenEdges t).mpr ⟨g, hg⟩))

theorem missesFrom_mem (history : List (Int × Int)) (faceCache : FaceCacheMeshCreator.Table) :
    ∀ (faces : List Face) (i : Nat) {t : Nat} {g : Face},
      (t, g) ∈ missesFrom history faceCache faces i →
      i ≤ t ∧ faces.get? (t - i) = some g ∧ hitEntry history faceCache g = none := by
  intro faces
  induction faces with
  | nil => intro i t g hm; cases hm
  | cons f rest ih =>
    intro i t g hm
    cases h : hitEntry history faceCache f with
    | some be =>
      rw [missesFrom, h] at hm
      obtain ⟨hle, hget, hnone⟩ := ih (i + 1) hm
      refine ⟨le_trans (Nat.le_succ i) hle, ?_, hnone⟩
      have heq : t - i = (t - (i + 1)) + 1 := by omega
      rw [heq]
      simpa using hget
    | none =>
      rw [missesFrom, h] at hm
      rcases List.mem_cons.mp hm with hm | hm
      · rw [Prod.mk.injEq] at hm
        obtain ⟨ht, hg⟩ := hm
        subst ht
        subst hg
        exact ⟨le_refl _, by simp, h⟩
      · obtain ⟨hle, hget, hnone⟩ := ih (i + 1) hm
        refine ⟨le_trans (Nat.le_succ i) hle, ?_, hnone⟩
        have heq : t - i = (t - (i + 1)) + 1 := by omega
        rw [heq]
        simpa using hget

theorem mem_missesFrom (history : List (Int × Int)) (faceCache : FaceCacheMeshCreator.Table) :
    ∀ (faces : List Face) (i d : Nat) {g : Face},
      faces.get? d = some g → hitEntry history faceCache g = none →
      (i + d, g) ∈ missesFrom history faceCache faces i := by
  intro faces
  induction faces with
  | nil => intro i d g hget; simp at hget
  | cons f rest ih =>
    intro i d g hget hnone
    cases d with
    | zero =>
      simp at hget
      subst hget
      rw [missesFrom, hnone]
      simp
    | succ d₂ =>
      have hmem := ih (i + 1) d₂ (by simpa using hget) hnone
      have heq : i + (d₂ + 1) = (i + 1) + d₂ := by omega
      rw [heq]
      cases h : hitEntry history faceCache f with
      | some be => rw [missesFrom, h]; exact hmem
      | none => rw [missesFrom, h]; exact List.mem_cons_of_mem _ hmem

theorem cacheFace_mem {lineage : Option Int} {isCacheable : Bool}
    {facePromise : Except Err MeshBuffer} {edgePromises : List (Except Err (Option EdgeBuffer))}
    {w : Int × MeshBuffer × List EdgeBuffer}
    (hw : w ∈ FaceCacheMeshCreator.cacheFace lineage isCacheable facePromise edgePromises) :
    isCacheable = true ∧ lineage = some w.1 ∧ facePromise = .ok w.2.1 ∧
      ∃ vs, sequenceExcept edgePromises = .ok vs ∧ w.2.2 = vs.filterMap (fun x => x) := by
  unfold FaceCacheMeshCreator.cacheFace at hw
  cases isCacheable with
  | false => simp at hw
  | true =>
    simp only [if_true] at hw
    cases lineage with
    | none => simp at hw
    | some l =>
      cases facePromise with
      | error e => simp at hw
      | ok b =>
        cases hseq : sequenceExcept edgePromises with
        | error e => rw [hseq] at hw; simp at hw
        | ok vs =>
          rw [hseq] at hw
          simp at hw
          subst hw
          exact ⟨rfl, rfl, rfl, vs, rfl, rfl⟩

theorem faceLoop_writes_mem (k : Kernel) (history : List (Int × Int))
    (faceCache : FaceCacheMeshCreator.Table) (stepData : StepData) (formNote : FormNote)
    (outlinesOnly : Bool) :
    ∀ (faces : List Face) (i j : Nat) (seenEdges : List CurveEdge)
      {w : Int × MeshBuffer × List EdgeBuffer},
      w ∈ (FaceCacheMeshCreator.faceLoop k history faceCache stepData formNote outlinesOnly
        faces i j seenEdges).writes →
      ∃ t g, (t, g) ∈ missesFrom history faceCache faces i ∧
        g.ownChanged = false ∧ alookup g.id history = some w.1 ∧
        ParallelMeshCreator.calculateFace k g stepData formNote t = .ok w.2.1 ∧
        ∃ j₂ vs, sequenceExcept (faceEdgeTasks k stepData formNote outlinesOnly seenEdges g j₂) =
          .ok vs ∧ w.2.2 = vs.filterMap (fun x => x) := by
  intro faces
  induction faces with
  | nil => intro i j seenEdges w hw; cases hw
  | cons f rest ih =>
    intro i j seenEdges w hw
    cases h : hitEntry history faceCache f with
    | some be =>
      obtain ⟨b, es⟩ := be
      rw [faceLoop_cons_hit k history faceCache stepData formNote outlinesOnly f rest i j
        seenEdges h] at hw
      obtain ⟨t, g, hmem, hrest⟩ := ih (i + 1) j seenEdges hw
      exact ⟨t, g, by rw [missesFrom, h]; exact hmem, hrest⟩
    | none =>
      rw [faceLoop_cons_miss k history faceCache stepData formNote outlinesOnly f rest i j
        seenEdges h] at hw
      rcases List.mem_append.mp hw with hw | hw
      · obtain ⟨hC, hlin, hfp, vs, hseq, hw2⟩ := cacheFace_mem hw
        have hown : f.ownChanged = false := by
          rcases Bool.and_eq_true _ _ |>.mp hC with ⟨h₁, _⟩
          simpa using h₁
        refine ⟨i, f, ?_, hown, hlin, hfp, j, vs, hseq, hw2⟩
        rw [missesFrom, h]
        exact List.mem_cons_self _ _
      · obtain ⟨t, g, hmem, hrest⟩ := ih (i + 1)
          (j + (f.edges.filter (fun e => !seenEdges.contains e)).length) seenEdges hw
        refine ⟨t, g, ?_, hrest⟩
        rw [missesFrom, h]
        exact List.mem_cons_of_mem _ hmem

theorem applyWrites_untouched :
    ∀ (writes faceCache : FaceCacheMeshCreator.Table) (l : Int),
      (∀ w ∈ writes, w.1 ≠ l) →
      alookup l (FaceCacheMeshCreator.applyWrites faceCache writes) = alookup l faceCache := by
  intro writes
  induction writes with
  | nil => intro c l h; rfl
  | cons w rest ih =>
    intro c l h
    have hstep : FaceCacheMeshCreator.applyWrites c (w :: rest) =
        FaceCacheMeshCreator.applyWrites (ainsert w.1 w.2 c) rest := by
      simp [FaceCacheMeshCreator.applyWrites]
    rw [hstep, ih (ainsert w.1 w.2 c) l (fun x hx => h x (List.mem_cons_of_mem w hx)),
      alookup_ainsert_ne (Ne.symm (h w (List.mem_cons_self w rest))) w.2 c]

theorem calculateFace_ok_i {k : Kernel} {f : Face} {stepData : StepData} {formNote : FormNote}
    {i : Nat} {b : MeshBuffer}
    (h : ParallelMeshCreator.calculateFace k f stepData formNote i = .ok b) : b.i = i := by
  unfold ParallelMeshCreator.calculateFace at h
  cases hg : k.gridCalc f stepData formNote with
  | error e => rw [hg] at h; simp at h
  | ok g =>
    rw [hg] at h
    simp only [Except.ok.injEq] at h
    subst h
    rfl

theorem calculateFace_ok_gridCalc {k : Kernel} {f : Face} {stepData : StepData}
    {formNote : FormNote} {i : Nat} {b : MeshBuffer}
    (h : ParallelMeshCreator.calculateFace k f stepData formNote i = .ok b) :
    ∃ g, k.gridCalc f stepData formNote = .ok g := by
  unfold ParallelMeshCreator.calculateFace at h
  cases hg : k.gridCalc f stepData formNote with
  | error e => rw [hg] at h; simp at h
  | ok g => exact ⟨g, rfl⟩

theorem calculateFace_gridCalc_error {k : Kernel} {f : Face} {stepData : StepData}
    {formNote : FormNote} {er : Err} (i : Nat) (h : k.gridCalc f stepData formNote = .error er) :
    ParallelMeshCreator.calculateFace k f stepData formNote i = .error er := by
  unfold ParallelMeshCreator.calculateFace
  rw [h]

theorem calculateEdge_ok_edgeMesh {k : Kernel} {e : CurveEdge} {stepData : StepData}
    {formNote : FormNote} {outlinesOnly : Bool} {idx : Nat} {v : Option EdgeBuffer}
    (h : ParallelMeshCreator.calculateEdge k e stepData formNote outlinesOnly idx = .ok v) :
    ∃ out, k.edgeMesh e stepData formNote outlinesOnly = .ok out := by
  unfold ParallelMeshCreator.calculateEdge at h
  cases hm : k.edgeMesh e stepData formNote outlinesOnly with
  | error er => rw [hm] at h; simp at h
  | ok out => exact ⟨out, rfl⟩

theorem calculateEdge_edgeMesh_error {k : Kernel} {e : CurveEdge} {stepData : StepData}
    {formNote : FormNote} {outlinesOnly : Bool} {er : Err} (idx : Nat)
    (h : k.edgeMesh e stepData formNote outlinesOnly = .error er) :
    ParallelMeshCreator.calculateEdge k e stepData formNote outlinesOnly idx = .error er := by
  unfold ParallelMeshCreator.calculateEdge
  rw [h]

theorem mem_mapIdxFrom {α β : Type} (f : Nat → α → β) :
    ∀ (l : List α) (n : Nat) {a : α}, a ∈ l → ∃ idx, f idx a ∈ mapIdxFrom f n l := by
  intro l
  induction l with
  | nil => intro n a ha; cases ha
  | cons hd tl ih =>
    intro n a ha
    rcases List.mem_cons.mp ha with ha | ha
    · subst ha
      exact ⟨n, List.mem_cons_self _ _⟩
    · obtain ⟨idx, hidx⟩ := ih (n + 1) ha
      exact ⟨idx, List.mem_cons_of_mem _ hidx⟩

theorem filter_contains_nil (l : List CurveEdge) :
    l.filter (fun e => !(List.contains [] e)) = l := by
  induction l with
  | nil => rfl
  | cons hd tl ih => simp [List.filter, ih]

theorem parallel_create_solid_result (k : Kernel) (s : Solid) (stepData : StepData)
    (formNote : FormNote) (outlinesOnly : Bool) :
    (ParallelMeshCreator.create k (.solid s) stepData formNote outlinesOnly).result =
      match sequenceExcept
        (ParallelMeshCreator.create k (.solid s) stepData formNote outlinesOnly).facePromises with
      | .error e => .error e
      | .ok faceResult =>
        match sequenceExcept
          (ParallelMeshCreator.create k (.solid s) stepData formNote outlinesOnly).edgePromises with
        | .error e => .error e
        | .ok edgeResults =>
          .ok { faces := faceResult, edges := edgeResults.filterMap (fun x => x) } := rfl

theorem parallel_create_solid_trace (k : Kernel) (s : Solid) (stepData : StepData)
    (formNote : FormNote) (outlinesOnly : Bool) :
    (ParallelMeshCreator.create k (.solid s) stepData formNote outlinesOnly).trace =
      Event.enterRegion ::
        ((List.range s.faces.length).map Event.faceCall ++
         (List.range s.edges.length).map Event.edgeCall ++
         (match (ParallelMeshCreator.create k (.solid s) stepData formNote outlinesOnly).result with
          | .ok _ => [Event.exitRegion]
          | .error _ => [])) := rfl

theorem parallel_create_solid_facePromises (k : Kernel) (s : Solid) (stepData : StepData)
    (formNote : FormNote) (outlinesOnly : Bool) :
    (ParallelMeshCreator.create k (.solid s) stepData formNote outlinesOnly).facePromises =
      mapIdxFrom (fun i face => ParallelMeshCreator.calculateFace k face stepData formNote i)
        0 s.faces := rfl

theorem faceCache_create_solid_result (k : Kernel) (history : List (Int × Int))
    (faceCache : FaceCacheMeshCreator.Table) (s : Solid) (stepData : StepData)
    (formNote : FormNote) (outlinesOnly : Bool) :
    (FaceCacheMeshCreator.create k history faceCache (.solid s) stepData formNote
      outlinesOnly).result =
      match sequenceExcept (FaceCacheMeshCreator.create k history faceCache (.solid s) stepData
        formNote outlinesOnly).facePromises with
      | .error e => .error e
      | .ok faceResult =>
        match sequenceExcept (FaceCacheMeshCreator.create k history faceCache (.solid s) stepData
          formNote outlinesOnly).edgePromises with
        | .error e => .error e
        | .ok edgeResults =>
          .ok { faces := (FaceCacheMeshCreator.faceLoop k history faceCache stepData formNote
                  outlinesOnly s.faces 0 0 []).cachedFaces ++ faceResult,
                edges := (FaceCacheMeshCreator.faceLoop k history faceCache stepData formNote
                  outlinesOnly s.faces 0 0 []).cachedEdges ++
                  edgeResults.filterMap (fun x => x) } := rfl

theorem faceCache_create_solid_trace (k : Kernel) (history : List (Int × Int))
    (faceCache : FaceCacheMeshCreator.Table) (s : Solid) (stepData : StepData)
    (formNote : FormNote) (outlinesOnly : Bool) :
    (FaceCacheMeshCreator.create k history faceCache (.solid s) stepData formNote
      outlinesOnly).trace =
      Event.enterRegion ::
        ((FaceCacheMeshCreator.faceLoop k history faceCache stepData formNote outlinesOnly
            s.faces 0 0 []).events ++
         (match (FaceCacheMeshCreator.create k history faceCache (.solid s) stepData formNote
            outlinesOnly).result with
          | .ok _ => [Event.exitRegion]
          | .error _ => [])) := rfl

theorem faceCache_create_solid_facePromises (k : Kernel) (history : List (Int × Int))
    (faceCache : FaceCacheMeshCreator.Table) (s : Solid) (stepData : StepData)
    (formNote : FormNote) (outlinesOnly : Bool) :
    (FaceCacheMeshCreator.create k history faceCache (.solid s) stepData formNote
      outlinesOnly).facePromises =
      (FaceCacheMeshCreator.faceLoop k history faceCache stepData formNote outlinesOnly
        s.faces 0 0 []).facePromises := rfl

theorem faceCache_create_solid_faceCache (k : Kernel) (history : List (Int × Int))
    (faceCache : FaceCacheMeshCreator.Table) (s : Solid) (stepData : StepData)
    (formNote : FormNote) (outlinesOnly : Bool) :
    (FaceCacheMeshCreator.create k history faceCache (.solid s) stepData formNote
      outlinesOnly).faceCache =
      FaceCacheMeshCreator.applyWrites faceCache
        (FaceCacheMeshCreator.faceLoop k history faceCache stepData formNote outlinesOnly
          s.faces 0 0 []).writes := rfl

theorem getLast?_cons_append_singleton {α : Type} (b : α) :
    ∀ (l : List α) (a : α), (a :: (l ++ [b])).getLast? = some b := by
  intro l
  induction l with
  | nil => intro a; rfl
  | cons hd tl ih =>
    intro a
    rw [List.cons_append, List.getLast?_cons_cons]
    exact ih hd

/-- Claim C5: if at least one issued per-face or per-edge task of a
create call on a solid rejects, the whole call rejects: its result is a
failure, never a MeshLike assembled from the subset of fulfilled tasks;
this holds both for the plain parallel strategy and for the
face-caching strategy. -/
theorem noPartialResultOnFailure (k : Kernel) (history : List (Int × Int))
    (faceCache : FaceCacheMeshCreator.Table) (s : Solid) (stepData : StepData)
    (formNote : FormNote) (outlinesOnly : Bool) :
    (((∃ er, Except.error er ∈
        (ParallelMeshCreator.create k (.solid s) stepData formNote outlinesOnly).facePromises) ∨
      (∃ er, Except.error er ∈
        (ParallelMeshCreator.create k (.solid s) stepData formNote outlinesOnly).edgePromises)) →
      ∃ er₂, (ParallelMeshCreator.create k (.solid s) stepData formNote outlinesOnly).result =
        .error er₂)
    ∧ (((∃ er, Except.error er ∈
        (FaceCacheMeshCreator.create k history faceCache (.solid s) stepData formNote
          outlinesOnly).facePromises) ∨
      (∃ er, Except.error er ∈
        (FaceCacheMeshCreator.create k history faceCache (.solid s) stepData formNote
          outlinesOnly).edgePromises)) →
      ∃ er₂, (FaceCacheMeshCreator.create k history faceCache (.solid s) stepData formNote
        outlinesOnly).result = .error er₂) := by
  constructor
  · intro h
    rcases h with ⟨er, hm⟩ | ⟨er, hm⟩
    · obtain ⟨e₂, he₂⟩ := sequenceExcept_error_of_mem hm
      refine ⟨e₂, ?_⟩
      rw [parallel_create_solid_result, he₂]
    · obtain ⟨e₂, he₂⟩ := sequenceExcept_error_of_mem hm
      rw [parallel_create_solid_result]
      cases hf : sequenceExcept
          (ParallelMeshCreator.create k (.solid s) stepData formNote outlinesOnly).facePromises with
      | error e₃ => exact ⟨e₃, rfl⟩
      | ok a => exact ⟨e₂, by rw [he₂]⟩
  · intro h
    rcases h with ⟨er, hm⟩ | ⟨er, hm⟩
    · obtain ⟨e₂, he₂⟩ := sequenceExcept_error_of_mem hm
      refine ⟨e₂, ?_⟩
      rw [faceCache_create_solid_result, he₂]
    · obtain ⟨e₂, he₂⟩ := sequenceExcept_error_of_mem hm
      rw [faceCache_create_solid_result]
      cases hf : sequenceExcept
          (FaceCacheMeshCreator.create k history faceCache (.solid s) stepData formNote
            outlinesOnly).facePromises with
      | error e₃ => exact ⟨e₃, rfl⟩
      | ok a => exact ⟨e₂, by rw [he₂]⟩

/-- Witness for C5 at a concrete input: with a kernel whose face-grid
computation rejects with error 3, the parallel create call on a
one-face one-edge solid rejects. -/
theorem noPartialResultOnFailureWitness :
    ∃ er₂, (ParallelMeshCreator.create kernelFaceFail (.solid solidF)
      { sag := 1 } fn0 false).result = .error er₂ :=
  (noPartialResultOnFailure kernelFaceFail [] [] solidF { sag := 1 } fn0 false).1
    (Or.inl ⟨3, by exact List.Mem.head _⟩)

/-- Claim C6 (amended): every create call on a solid, through the plain
parallel strategy and through the face-caching strategy, enters the
process-wide parallel-execution region before issuing any per-face or
per-edge kernel call (the trace begins with the region entry); when all
tasks fulfill the region is exited after all tasks settle (the trace
ends with the region exit); but when a task rejects, the call completes
without exiting the region, which is left entered. -/
theorem regionBracketAmended (k : Kernel) (history : List (Int × Int))
    (faceCache : FaceCacheMeshCreator.Table) (s : Solid) (stepData : StepData)
    (formNote : FormNote) (outlinesOnly : Bool) :
    ((ParallelMeshCreator.create k (.solid s) stepData formNote outlinesOnly).trace.head? =
        some Event.enterRegion
      ∧ (∀ m, (ParallelMeshCreator.create k (.solid s) stepData formNote outlinesOnly).result =
            .ok m →
          (ParallelMeshCreator.create k (.solid s) stepData formNote
            outlinesOnly).trace.getLast? = some Event.exitRegion)
      ∧ (∀ er, (ParallelMeshCreator.create k (.solid s) stepData formNote outlinesOnly).result =
            .error er →
          Event.exitRegion ∉
            (ParallelMeshCreator.create k (.solid s) stepData formNote outlinesOnly).trace))
    ∧ ((FaceCacheMeshCreator.create k history faceCache (.solid s) stepData formNote
          outlinesOnly).trace.head? = some Event.enterRegion
      ∧ (∀ m, (FaceCacheMeshCreator.create k history faceCache (.solid s) stepData formNote
            outlinesOnly).result = .ok m →
          (FaceCacheMeshCreator.create k history faceCache (.solid s) stepData formNote
            outlinesOnly).trace.getLast? = some Event.exitRegion)
      ∧ (∀ er, (FaceCacheMeshCreator.create k history faceCache (.solid s) stepData formNote
            outlinesOnly).result = .error er →
          Event.exitRegion ∉
            (FaceCacheMeshCreator.create k history faceCache (.solid s) stepData formNote
              outlinesOnly).trace)) := by
  constructor
  · refine ⟨by rw [parallel_create_solid_trace]; rfl, ?_, ?_⟩
    · intro m hm
      rw [parallel_create_solid_trace, hm]
      exact getLast?_cons_append_singleton _ _ _
    · intro er her
      rw [parallel_create_solid_trace, her]
      intro hc
      rcases List.mem_cons.mp hc with hc | hc
      · cases hc
      · rcases List.mem_append.mp hc with hc | hc
        · rcases List.mem_append.mp hc with hc | hc
          · rcases List.mem_map.mp hc with ⟨x, _, hx⟩
            cases hx
          · rcases List.mem_map.mp hc with ⟨x, _, hx⟩
            cases hx
        · cases hc
  · refine ⟨by rw [faceCache_create_solid_trace]; rfl, ?_, ?_⟩
    · intro m hm
      rw [faceCache_create_solid_trace, hm]
      exact getLast?_cons_append_singleton _ _ _
    · intro er her
      rw [faceCache_create_solid_trace, her]
      intro hc
      rcases List.mem_cons.mp hc with hc | hc
      · cases hc
      · rcases List.mem_append.mp hc with hc | hc
        · exact (faceLoop_events_no_region k history faceCache stepData formNote outlinesOnly
            s.faces 0 0 []).2 hc
        · cases hc

/-- Witness for C6 (amended) at concrete inputs: a fulfilled parallel
create exits the region last, and a rejected one never exits it. -/
theorem regionBracketAmendedWitness :
    (ParallelMeshCreator.create kernelOk (.solid solidF)
      { sag := 1 } fn0 false).trace.getLast? = some Event.exitRegion
    ∧ Event.exitRegion ∉ (ParallelMeshCreator.create kernelFaceFail (.solid solidF)
      { sag := 1 } fn0 false).trace := by
  constructor
  · exact (regionBracketAmended kernelOk [] [] solidF { sag := 1 } fn0 false).1.2.1
      { faces := [{ index := [10], position := [1], normal := [], model := 10, style := 0,
                    simpleName := 0, i := 0 }],
        edges := [{ polyline := [0], model := 0, i := 0 }] } rfl
  · exact (regionBracketAmended kernelFaceFail [] [] solidF { sag := 1 } fn0 false).1.2.2 3 rfl

theorem parallel_create_solid_result_ok {k : Kernel} {s : Solid} {stepData : StepData}
    {formNote : FormNote} {outlinesOnly : Bool} {m : MeshLike}
    (h : (ParallelMeshCreator.create k (.solid s) stepData formNote outlinesOnly).result =
      .ok m) :
    ∃ fr er,
      sequenceExcept
        (ParallelMeshCreator.create k (.solid s) stepData formNote outlinesOnly).facePromises =
        .ok fr ∧
      sequenceExcept
        (ParallelMeshCreator.create k (.solid s) stepData formNote outlinesOnly).edgePromises =
        .ok er ∧
      m = { faces := fr, edges := er.filterMap (fun x => x) } := by
  cases hf : sequenceExcept
      (ParallelMeshCreator.create k (.solid s) stepData formNote outlinesOnly).facePromises with
  | error e => rw [parallel_create_solid_result, hf] at h; simp at h
  | ok fr =>
    cases he : sequenceExcept
        (ParallelMeshCreator.create k (.solid s) stepData formNote outlinesOnly).edgePromises with
    | error e => rw [parallel_create_solid_result, hf, he] at h; simp at h
    | ok er =>
      rw [parallel_create_solid_result, hf, he] at h
      simp at h
      exact ⟨fr, er, rfl, rfl, h.symm⟩

theorem faceCache_create_solid_result_ok {k : Kernel} {history : List (Int × Int)}
    {faceCache : FaceCacheMeshCreator.Table} {s : Solid} {stepData : StepData}
    {formNote : FormNote} {outlinesOnly : Bool} {m : MeshLike}
    (h : (FaceCacheMeshCreator.create k history faceCache (.solid s) stepData formNote
      outlinesOnly).result = .ok m) :
    ∃ fr er,
      sequenceExcept (FaceCacheMeshCreator.create k history faceCache (.solid s) stepData
        formNote outlinesOnly).facePromises = .ok fr ∧
      sequenceExcept (FaceCacheMeshCreator.create k history faceCache (.solid s) stepData
        formNote outlinesOnly).edgePromises = .ok er ∧
      m = { faces := (FaceCacheMeshCreator.faceLoop k history faceCache stepData formNote
              outlinesOnly s.faces 0 0 []).cachedFaces ++ fr,
            edges := (FaceCacheMeshCreator.faceLoop k history faceCache stepData formNote
              outlinesOnly s.faces 0 0 []).cachedEdges ++ er.filterMap (fun x => x) } := by
  cases hf : sequenceExcept (FaceCacheMeshCreator.create k history faceCache (.solid s) stepData
      formNote outlinesOnly).facePromises with
  | error e => rw [faceCache_create_solid_result, hf] at h; simp at h
  | ok fr =>
    cases he : sequenceExcept (FaceCacheMeshCreator.create k history faceCache (.solid s)
        stepData formNote outlinesOnly).edgePromises with
    | error e => rw [faceCache_create_solid_result, hf, he] at h; simp at h
    | ok er =>
      rw [faceCache_create_solid_result, hf, he] at h
      simp at h
      exact ⟨fr, er, rfl, rfl, h.symm⟩

theorem mapIdxFrom_eq_map_enumFrom {α β : Type} (f : Nat → α → β) :
    ∀ (l : List α) (n : Nat),
      mapIdxFrom f n l = (List.enumFrom n l).map (fun p => f p.1 p.2) := by
  intro l
  induction l with
  | nil => intro n; rfl
  | cons hd tl ih => intro n; simp [mapIdxFrom, List.enumFrom, ih]

theorem seq_calculateFace_map_i (k : Kernel) (stepData : StepData) (formNote : FormNote) :
    ∀ (ps : List (Nat × Face)) {fr : List MeshBuffer},
      sequenceExcept (ps.map
        (fun p => ParallelMeshCreator.calculateFace k p.2 stepData formNote p.1)) = .ok fr →
      fr.map (fun b => b.i) = ps.map (fun p => p.1) := by
  intro ps
  induction ps with
  | nil =>
    intro fr h
    simp [sequenceExcept] at h
    simp [← h]
  | cons p rest ih =>
    intro fr h
    rw [List.map_cons] at h
    cases hc : ParallelMeshCreator.calculateFace k p.2 stepData formNote p.1 with
    | error e => rw [hc] at h; simp [sequenceExcept] at h
    | ok b =>
      rw [hc, sequenceExcept] at h
      cases hs : sequenceExcept (rest.map
          (fun p => ParallelMeshCreator.calculateFace k p.2 stepData formNote p.1)) with
      | error e => rw [hs] at h; simp at h
      | ok vs =>
        rw [hs] at h
        simp at h
        subst h
        simp [calculateFace_ok_i hc, ih hs]

theorem cacheHitFaces_all_none (history : List (Int × Int))
    (faceCache : FaceCacheMeshCreator.Table) :
    ∀ (faces : List Face), (∀ f ∈ faces, hitEntry history faceCache f = none) →
      cacheHitFaces history faceCache faces = [] := by
  intro faces
  induction faces with
  | nil => intro _; rfl
  | cons f rest ih =>
    intro h
    rw [cacheHitFaces, h f (List.mem_cons_self f rest)]
    exact ih (fun g hg => h g (List.mem_cons_of_mem f hg))

theorem missesFrom_all_none_fst (history : List (Int × Int))
    (faceCache : FaceCacheMeshCreator.Table) :
    ∀ (faces : List Face) (i : Nat), (∀ f ∈ faces, hitEntry history faceCache f = none) →
      (missesFrom history faceCache faces i).map (fun p => p.1) =
        List.range' i faces.length := by
  intro faces
  induction faces with
  | nil => intro i _; rfl
  | cons f rest ih =>
    intro i h
    rw [missesFrom, h f (List.mem_cons_self f rest)]
    rw [List.map_cons, ih (i + 1) (fun g hg => h g (List.mem_cons_of_mem f hg))]
    rw [List.length_cons, List.range'_succ]

/-- Claim C4 (amended): the plain parallel create returns the faces in
the declared face order (the ordinal stamped on the n-th returned
buffer is n); the face-caching create returns the cache-hit buffers
first, in declared order, followed by the recomputed buffers, in
declared order, each recomputed buffer carrying its declared ordinal;
and when no face hits the cache the face-caching create also returns
the faces in declared order. -/
theorem faceOrderAmended (k : Kernel) (history : List (Int × Int))
    (faceCache : FaceCacheMeshCreator.Table) (s : Solid) (stepData : StepData)
    (formNote : FormNote) (outlinesOnly : Bool) :
    (∀ m, (ParallelMeshCreator.create k (.solid s) stepData formNote outlinesOnly).result =
        .ok m →
      m.faces.map (fun b => b.i) = List.range s.faces.length)
    ∧ (∀ m, (FaceCacheMeshCreator.create k history faceCache (.solid s) stepData formNote
        outlinesOnly).result = .ok m →
      ∃ fr, sequenceExcept ((missesFrom history faceCache s.faces 0).map
          (fun p => ParallelMeshCreator.calculateFace k p.2 stepData formNote p.1)) = .ok fr ∧
        m.faces = cacheHitFaces history faceCache s.faces ++ fr ∧
        fr.map (fun b => b.i) = (missesFrom history faceCache s.faces 0).map (fun p => p.1))
    ∧ ((∀ f ∈ s.faces, hitEntry history faceCache f = none) →
      ∀ m, (FaceCacheMeshCreator.create k history faceCache (.solid s) stepData formNote
        outlinesOnly).result = .ok m →
      m.faces.map (fun b => b.i) = List.range s.faces.length) := by
  have hfc : ∀ m, (FaceCacheMeshCreator.create k history faceCache (.solid s) stepData formNote
      outlinesOnly).result = .ok m →
      ∃ fr, sequenceExcept ((missesFrom history faceCache s.faces 0).map
          (fun p => ParallelMeshCreator.calculateFace k p.2 stepData formNote p.1)) = .ok fr ∧
        m.faces = cacheHitFaces history faceCache s.faces ++ fr ∧
        fr.map (fun b => b.i) = (missesFrom history faceCache s.faces 0).map (fun p => p.1) := by
    intro m hm
    obtain ⟨fr, er, hfr, her, hmesh⟩ := faceCache_create_solid_result_ok hm
    rw [faceCache_create_solid_facePromises, faceLoop_facePromises] at hfr
    refine ⟨fr, hfr, ?_, seq_calculateFace_map_i k stepData formNote _ hfr⟩
    rw [hmesh]
    rw [faceLoop_cachedFaces]
  refine ⟨?_, hfc, ?_⟩
  · intro m hm
    obtain ⟨fr, er, hfr, her, hmesh⟩ := parallel_create_solid_result_ok hm
    rw [parallel_create_solid_facePromises, mapIdxFrom_eq_map_enumFrom] at hfr
    have hi := seq_calculateFace_map_i k stepData formNote (List.enumFrom 0 s.faces) hfr
    rw [hmesh]
    show fr.map (fun b => b.i) = List.range s.faces.length
    rw [hi]
    have : (List.enumFrom 0 s.faces).map (fun p => p.1) =
        (List.enumFrom 0 s.faces).map Prod.fst := rfl
    rw [this, List.enumFrom_map_fst, List.range_eq_range']
  · intro hall m hm
    obtain ⟨fr, hfr, hfaces, hi⟩ := hfc m hm
    rw [hfaces, cacheHitFaces_all_none history faceCache s.faces hall, List.nil_append, hi,
      missesFrom_all_none_fst history faceCache s.faces 0 hall, List.range_eq_range']

/-- Witness for C4 (amended) at a concrete input: the fulfilled parallel
create on solidF returns meshF, whose face ordinals read 0, 1, ... in
declared order. -/
theorem faceOrderAmendedWitness :
    (ParallelMeshCreator.create kernelOk (.solid solidF) { sag := 1 } fn0 false).result =
      Except.ok meshF
    ∧ meshF.faces.map (fun b => b.i) = List.range solidF.faces.length :=
  ⟨rfl, (faceOrderAmended kernelOk [] [] solidF { sag := 1 } fn0 false).1 meshF rfl⟩

/-- Counterexample to claim C8: a face that reports changed, whose
lineage id resolves to 88 and for which the table holds a stale entry,
is recomputed, but the entry under lineage 88 is NOT overwritten with
the new result: the stale pair survives the call unchanged while the
call returns a freshly computed buffer that differs from it (cacheFace
guards the store on the face being unchanged). -/
theorem changedFaceEntryNotOverwritten :
    Event.faceCall 0 ∈ (FaceCacheMeshCreator.create kernelOk [(30, 88)] [(88, bufStale, [])]
      (.solid solid8) { sag := 1 } fn0 false).trace
    ∧ alookup 88 (FaceCacheMeshCreator.create kernelOk [(30, 88)] [(88, bufStale, [])]
        (.solid solid8) { sag := 1 } fn0 false).faceCache = some (bufStale, [])
    ∧ (FaceCacheMeshCreator.create kernelOk [(30, 88)] [(88, bufStale, [])]
        (.solid solid8) { sag := 1 } fn0 false).result =
      Except.ok { faces := [{ index := [30], position := [1], normal := [], model := 30,
                              style := 0, simpleName := 0, i := 0 }], edges := [] }
    ∧ ({ index := [30], position := [1], normal := [], model := 30, style := 0, simpleName := 0,
         i := 0 } : MeshBuffer) ≠ bufStale := by
  refine ⟨by decide, rfl, rfl, by decide⟩

theorem faceCache_create_solid_writes (k : Kernel) (history : List (Int × Int))
    (faceCache : FaceCacheMeshCreator.Table) (s : Solid) (stepData : StepData)
    (formNote : FormNote) (outlinesOnly : Bool) :
    (FaceCacheMeshCreator.create k history faceCache (.solid s) stepData formNote
      outlinesOnly).writes =
      (FaceCacheMeshCreator.faceLoop k history faceCache stepData formNote outlinesOnly
        s.faces 0 0 []).writes := rfl

theorem hitEntry_of_ownChanged {history : List (Int × Int)}
    {faceCache : FaceCacheMeshCreator.Table} {f : Face} (h : f.ownChanged = true) :
    hitEntry history faceCache f = none := by
  unfold hitEntry
  cases alookup f.id history with
  | none => rfl
  | some l => simp [h]

theorem faceCall_mem_create_trace (k : Kernel) (history : List (Int × Int))
    (faceCache : FaceCacheMeshCreator.Table) (s : Solid) (stepData : StepData)
    (formNote : FormNote) (outlinesOnly : Bool) (t : Nat) :
    Event.faceCall t ∈ (FaceCacheMeshCreator.create k history faceCache (.solid s) stepData
      formNote outlinesOnly).trace ↔
      Event.faceCall t ∈ (FaceCacheMeshCreator.faceLoop k history faceCache stepData formNote
        outlinesOnly s.faces 0 0 []).events := by
  rw [faceCache_create_solid_trace]
  constructor
  · intro hc
    rcases List.mem_cons.mp hc with hc | hc
    · cases hc
    · rcases List.mem_append.mp hc with hc | hc
      · exact hc
      · exfalso
        cases hres : (FaceCacheMeshCreator.create k history faceCache (.solid s) stepData
            formNote outlinesOnly).result with
        | ok m => rw [hres] at hc; simp at hc
        | error e => rw [hres] at hc; simp at hc
  · intro hc
    exact List.mem_cons_of_mem _ (List.mem_append.mpr (Or.inl hc))

/-- Claim C8 (amended): for every face of a solid handled by the
face-caching create: a face task is issued for the face exactly when no
cached pair is usable for it, i.e. the cached entry is read only when
the face reports no local change, its lineage id resolves, and an entry
exists; a face that reports changed is always recomputed; but the
detected mutation does NOT overwrite the entry under that lineage id:
when no other face of the solid resolves to the same lineage id, the
table entry for it is left exactly as it was (a new entry is stored
only for an unchanged, lineage-resolvable face that missed the cache). -/
theorem faceCacheReadWriteAmended (k : Kernel) (history : List (Int × Int))
    (faceCache : FaceCacheMeshCreator.Table) (s : Solid) (stepData : StepData)
    (formNote : FormNote) (outlinesOnly : Bool) (i : Nat) (f : Face)
    (hget : s.faces.get? i = some f) :
    (Event.faceCall i ∈ (FaceCacheMeshCreator.create k history faceCache (.solid s) stepData
        formNote outlinesOnly).trace ↔ hitEntry history faceCache f = none)
    ∧ (f.ownChanged = true → Event.faceCall i ∈ (FaceCacheMeshCreator.create k history faceCache
        (.solid s) stepData formNote outlinesOnly).trace)
    ∧ (∀ l, f.ownChanged = true → alookup f.id history = some l →
        (∀ t g, s.faces.get? t = some g → t ≠ i → alookup g.id history ≠ some l) →
        alookup l (FaceCacheMeshCreator.create k history faceCache (.solid s) stepData formNote
          outlinesOnly).faceCache = alookup l faceCache) := by
  have hiff : Event.faceCall i ∈ (FaceCacheMeshCreator.create k history faceCache (.solid s)
      stepData formNote outlinesOnly).trace ↔ hitEntry history faceCache f = none := by
    rw [faceCall_mem_create_trace,
      faceLoop_events_faceCall k history faceCache stepData formNote outlinesOnly s.faces 0 0 []]
    constructor
    · intro hg
      obtain ⟨g, hmem⟩ := hg
      obtain ⟨_, hget2, hnone⟩ := missesFrom_mem history faceCache s.faces 0 hmem
      rw [Nat.sub_zero, hget] at hget2
      simp at hget2
      rw [hget2]
      exact hnone
    · intro hnone
      refine ⟨f, ?_⟩
      have := mem_missesFrom history faceCache s.faces 0 i hget hnone
      simpa using this
  refine ⟨hiff, fun hc => hiff.mpr (hitEntry_of_ownChanged hc), ?_⟩
  intro l hchanged hlin hdist
  rw [faceCache_create_solid_faceCache]
  apply applyWrites_untouched
  intro w hw heq
  obtain ⟨t, g, hmem, hown, hgl, _, _⟩ := faceLoop_writes_mem k history faceCache stepData
    formNote outlinesOnly s.faces 0 0 [] hw
  obtain ⟨_, hget2, _⟩ := missesFrom_mem history faceCache s.faces 0 hmem
  rw [Nat.sub_zero] at hget2
  by_cases ht : t = i
  · subst ht
    rw [hget] at hget2
    simp at hget2
    rw [← hget2] at hown
    rw [hown] at hchanged
    cases hchanged
  · exact hdist t g hget2 ht (by rw [hgl, heq])

/-- Witness for C8 (amended) at a concrete input: the changed face of
solid8 is recomputed and its stale lineage-88 entry is left exactly as
it was. -/
theorem faceCacheReadWriteAmendedWitness :
    Event.faceCall 0 ∈ (FaceCacheMeshCreator.create kernelOk [(30, 88)] [(88, bufStale, [])]
      (.solid solid8) { sag := 1 } fn0 false).trace
    ∧ alookup 88 (FaceCacheMeshCreator.create kernelOk [(30, 88)] [(88, bufStale, [])]
        (.solid solid8) { sag := 1 } fn0 false).faceCache =
      alookup 88 [(88, bufStale, [])] := by
  have h := faceCacheReadWriteAmended kernelOk [(30, 88)] [(88, bufStale, [])] solid8
    { sag := 1 } fn0 false 0 faceChangedLineage rfl
  refine ⟨h.2.1 rfl, h.2.2 88 rfl rfl ?_⟩
  intro t g hg ht
  cases t with
  | zero => exact absurd rfl ht
  | succ n => simp [solid8] at hg

/-- Claim C10: the face cache stores an entry only for a face whose
grid computation and every one of whose scheduled edge computations
fulfilled: every write of a face-caching create call on a solid comes
from a scheduled face whose lineage resolves to the written id, whose
kernel grid call fulfilled, and all of whose edge kernel calls
fulfilled; and when the face task or any of its edge tasks rejects, the
table entry for that face's lineage id is unchanged by the call
(provided no other face of the solid resolves to the same lineage id). -/
theorem cacheWriteRequiresSuccess (k : Kernel) (history : List (Int × Int))
    (faceCache : FaceCacheMeshCreator.Table) (s : Solid) (stepData : StepData)
    (formNote : FormNote) (outlinesOnly : Bool) :
    (∀ w ∈ (FaceCacheMeshCreator.create k history faceCache (.solid s) stepData formNote
        outlinesOnly).writes,
      ∃ t g, s.faces.get? t = some g ∧ alookup g.id history = some w.1 ∧
        (∃ gr, k.gridCalc g stepData formNote = .ok gr) ∧
        (∀ e ∈ g.edges, ∃ out, k.edgeMesh e stepData formNote outlinesOnly = .ok out))
    ∧ (∀ i f l, s.faces.get? i = some f → alookup f.id history = some l →
        ((∃ er, k.gridCalc f stepData formNote = .error er) ∨
         (∃ e ∈ f.edges, ∃ er, k.edgeMesh e stepData formNote outlinesOnly = .error er)) →
        (∀ t g, s.faces.get? t = some g → t ≠ i → alookup g.id history ≠ some l) →
        alookup l (FaceCacheMeshCreator.create k history faceCache (.solid s) stepData formNote
          outlinesOnly).faceCache = alookup l faceCache) := by
  constructor
  · intro w hw
    rw [faceCache_create_solid_writes] at hw
    obtain ⟨t, g, hmem, hown, hgl, hcf, j₂, vs, hseq, _⟩ := faceLoop_writes_mem k history
      faceCache stepData formNote outlinesOnly s.faces 0 0 [] hw
    obtain ⟨_, hget2, _⟩ := missesFrom_mem history faceCache s.faces 0 hmem
    rw [Nat.sub_zero] at hget2
    refine ⟨t, g, hget2, hgl, calculateFace_ok_gridCalc hcf, ?_⟩
    intro e he
    rw [faceEdgeTasks, filter_contains_nil] at hseq
    obtain ⟨idx, hidx⟩ := mem_mapIdxFrom
      (fun idx e => ParallelMeshCreator.calculateEdge k e stepData formNote outlinesOnly idx)
      g.edges j₂ he
    obtain ⟨v, hv⟩ := sequenceExcept_ok_forall hseq _ hidx
    exact calculateEdge_ok_edgeMesh hv
  · intro i f l hget hlin hfail hdist
    rw [faceCache_create_solid_faceCache]
    apply applyWrites_untouched
    intro w hw heq
    obtain ⟨t, g, hmem, hown, hgl, hcf, j₂, vs, hseq, _⟩ := faceLoop_writes_mem k history
      faceCache stepData formNote outlinesOnly s.faces 0 0 [] hw
    obtain ⟨_, hget2, _⟩ := missesFrom_mem history faceCache s.faces 0 hmem
    rw [Nat.sub_zero] at hget2
    by_cases ht : t = i
    · subst ht
      rw [hget] at hget2
      simp at hget2
      subst hget2
      rcases hfail with ⟨er, hg⟩ | ⟨e, he, er, hee⟩
      · rw [calculateFace_gridCalc_error t hg] at hcf
        cases hcf
      · rw [faceEdgeTasks, filter_contains_nil] at hseq
        obtain ⟨idx, hidx⟩ := mem_mapIdxFrom
          (fun idx e => ParallelMeshCreator.calculateEdge k e stepData formNote outlinesOnly idx)
          f.edges j₂ he
        obtain ⟨v, hv⟩ := sequenceExcept_ok_forall hseq _ hidx
        rw [calculateEdge_edgeMesh_error idx hee] at hv
        cases hv
    · exact hdist t g hget2 ht (by rw [hgl, heq])

/-- Witness for C10 at a concrete input: when the kernel grid call for
the unchanged lineage-77 face rejects, the call leaves the empty table
without an entry for lineage 77. -/
theorem cacheWriteRequiresSuccessWitness :
    alookup 77 (FaceCacheMeshCreator.create kernelFaceFail [(10, 77)] [] (.solid solid9)
      { sag := 1 } fn0 false).faceCache = alookup 77 ([] : FaceCacheMeshCreator.Table) := by
  refine (cacheWriteRequiresSuccess kernelFaceFail [(10, 77)] [] solid9
    { sag := 1 } fn0 false).2 0 face9 77 rfl rfl (Or.inl ⟨3, rfl⟩) ?_
  intro t g hg ht
  cases t with
  | zero => exact absurd rfl ht
  | succ n => simp [solid9] at hg
